import Mathlib

/-!
# `virtcontainers/qemu_ppc64le.go`: the ppc64le architecture provider

A shallow embedding of the ppc64le variant of the `qemuArch` contract
(`capabilities`, `bridges`, `cpuModel`, `memoryTopology`, `appendImage`,
`appendBridges`, `newQemuArch`) together with the properties its
specification states about it.

Conventions of the embedding:

* Go strings are `String`, Go slices are `List` (the nil slice is `[]`),
  a Go `error` result is `Option GoError` (`none` is the nil error).
* `uint32` / `uint64` arguments are natural numbers reduced modulo
  `2^32` / `2^64` where the function receives them.
* The file system and the entropy source are an explicit `World` that is
  threaded through `appendImage`.
* Declarations of package `virtcontainers` that live in other files are
  collected in `Pkg` and are parameters of every definition using them.
-/

namespace Virtcontainers

/-! ## Types declared outside `qemu_ppc64le.go` -/

/-- Type `Param`: one kernel parameter, a key and a value. -/
structure Param where
  Key : String
  Value : String
deriving DecidableEq, Repr

/-- Type `govmmQemu.Machine`: a machine profile and its option string. -/
structure Machine where
  Type_ : String
  Options : String
deriving DecidableEq, Repr

/-- Type `HypervisorConfig`, restricted to the one field `newQemuArch` reads. -/
structure HypervisorConfig where
  HypervisorMachineType : String
deriving DecidableEq, Repr

/-- Package-level declarations of `virtcontainers` used by
`qemu_ppc64le.go` and declared in other files of the package. Their values
are not fixed here: every definition below takes them as a parameter. -/
structure Pkg where
  /-- the machine type constant `QemuPpc64le` -/
  QemuPpc64le : String
  /-- the `bridgeType` constant `pciBridge` -/
  pciBridge : String
  /-- the `bridgeType` constant `pcieBridge` -/
  pcieBridge : String
  /-- the constant `defaultCPUModel` -/
  defaultCPUModel : String
  /-- the table `kernelParamsNonDebug` -/
  kernelParamsNonDebug : List Param
  /-- the table `kernelParamsDebug` -/
  kernelParamsDebug : List Param
  /-- position of the block-device hot-plug flag in `capabilities.flags` -/
  blockDeviceHotplugBit : Nat

/-- Type `Bridge`: `Type` is a `bridgeType` (a string type), `Address` a
`map[uint32]string`, kept as an association list (`[]` is the empty map). -/
structure Bridge where
  Type_ : String
  ID : String
  Address : List (Nat × String)
deriving DecidableEq, Repr

/-- Type `Drive`: a block device backing an image. -/
structure Drive where
  File : String
  Format : String
  ID : String
deriving DecidableEq, Repr

/-- Type `govmmQemu.BridgeType`: the VMM bridge kinds. -/
inductive BridgeType where
  | PCIBridge
  | PCIEBridge
deriving DecidableEq, Repr

/-- Type `govmmQemu.BridgeDevice`, with the fields `appendBridges` fills in. -/
structure BridgeDevice where
  Type_ : BridgeType
  Bus : String
  ID : String
  Chassis : Nat
  SHPC : Bool
deriving DecidableEq, Repr

/-- Modelled from the spec: the VMM block-device descriptor that a `Drive`
is converted into (`govmmQemu.BlockDevice` as filled in by
`qemuArchBase.appendBlockDevice`, which is not in `qemu_ppc64le.go`). It
carries what the drive carries. -/
structure BlockDevice where
  ID : String
  File : String
  Format : String
deriving DecidableEq, Repr

/-- Type `govmmQemu.Device`: the interface of VMM device descriptors. The two
variants this file emits, and `other` for every descriptor kind a caller
may already have put in a device list. -/
inductive Device where
  | bridge (d : BridgeDevice)
  | block (d : BlockDevice)
  | other (desc : String)
deriving DecidableEq, Repr

/-- Type `govmmQemu.Memory`; `Slots` is a `uint8`. -/
structure Memory where
  Size : String
  Slots : Nat
  MaxMem : String
deriving DecidableEq, Repr

/-- Modelled from the spec: the `capabilities` type (declared in another
file), "a bit-set-like value exposing named predicates" that "grows only
via explicit setter operations". Bit `k` of `flags` is capability `k`. -/
structure capabilities where
  flags : Nat
deriving DecidableEq, Repr

/-- Modelled from the spec: the setter `setBlockDeviceHotplugSupport` of
`capabilities` (declared in another file): it grants the block-device
hot-plug capability and leaves every other one as it was. -/
def capabilities.setBlockDeviceHotplugSupport (P : Pkg) (caps : capabilities) :
    capabilities :=
  { flags := caps.flags ||| (1 <<< P.blockDeviceHotplugBit) }

/-- Modelled from the spec: the named predicate of `capabilities`, here for
an arbitrary capability `k`. -/
def capabilities.isSet (caps : capabilities) (k : Nat) : Bool :=
  caps.flags.testBit k

/-- Type `qemuArchBase`: the state shared by all architecture variants. -/
structure qemuArchBase where
  machineType : String
  nestedRun : Bool
  qemuPaths : List (String × String)
  supportedQemuMachines : List Machine
  kernelParamsNonDebug : List Param
  kernelParamsDebug : List Param
  kernelParams : List Param
deriving DecidableEq, Repr

/-- Type `qemuPpc64le`: inherits from `qemuArchBase`. -/
structure qemuPpc64le extends qemuArchBase
deriving DecidableEq, Repr

/-! ## The trusted primitives: errors, `os.Stat`, the entropy source -/

/-- A Go `error` value as far as this file looks at it: whether
`os.IsNotExist` holds of it, and its text. -/
structure GoError where
  notExist : Bool
  text : String
deriving DecidableEq, Repr

/-- Function `os.IsNotExist(err)`; false of the nil error. -/
def isNotExist : Option GoError → Bool
  | none => false
  | some e => e.notExist

/-- One read of the entropy source: it fails with an error, or it supplies
bytes (byte `i` of the read is `supply i % 256`). -/
inductive RandOutcome where
  | fail (err : GoError)
  | ok (supply : Nat → Nat)

/-- The environment of `appendImage`: `stat path` is the error result of
`os.Stat(path)`, `rand k` the outcome of read number `k` of the entropy
source, `randReads` the number of reads made so far. -/
structure World where
  stat : String → Option GoError
  rand : Nat → RandOutcome
  randReads : Nat

/-- Modelled from the spec: `generateRandomBytes(n)` (declared in another
file), one call to the random source: `n` bytes, or the source's error and
no bytes. Every call is counted in `randReads`. -/
def generateRandomBytes (n : Nat) (w : World) : (List Nat × Option GoError) × World :=
  let w1 : World := { w with randReads := w.randReads + 1 }
  match w.rand w.randReads with
  | RandOutcome.fail err => (([], some err), w1)
  | RandOutcome.ok supply => (((List.range n).map fun i => supply i % 256, none), w1)

/-- The table `hextable` of `encoding/hex`. -/
def hextable : List Char := "0123456789abcdef".data

/-- Function `hex.EncodeToString`: two characters per byte, high nibble first. -/
def hexEncodeToString (src : List Nat) : String :=
  String.mk (src.flatMap fun v => [hextable.getD (v / 16) '0', hextable.getD (v % 16) '0'])

/-- Function `fromHexChar` of `encoding/hex`: the value of one hex character,
`none` for a character that is not a hex digit. -/
def fromHexChar (c : Char) : Option Nat :=
  if '0' ≤ c ∧ c ≤ '9' then some (c.toNat - '0'.toNat)
  else if 'a' ≤ c ∧ c ≤ 'f' then some (c.toNat - 'a'.toNat + 10)
  else if 'A' ≤ c ∧ c ≤ 'F' then some (c.toNat - 'A'.toNat + 10)
  else none

/-- Function `hex.DecodeString`, on the characters of its argument: one byte
per pair of hex characters, high nibble first; `none` where Go returns an
error (odd length, or a character that is not a hex digit). -/
def hexDecode : List Char → Option (List Nat)
  | [] => some []
  | [_] => none
  | hi :: lo :: rest =>
    match fromHexChar hi, fromHexChar lo, hexDecode rest with
    | some a, some b, some r => some ((a * 16 + b) :: r)
    | _, _, _ => none

/-- Modelled from the spec: `makeNameID(namedType, id)` (declared in another
file) combines the tag and the identifier, `"image"` and sixteen hex
characters giving `"image-"` followed by those characters. -/
def makeNameID (namedType id : String) : String :=
  namedType ++ "-" ++ id

/-- The verb `%d` of `fmt` on an unsigned integer. -/
def fmtDecimal (n : Nat) : String := Nat.repr n

/-! ## `qemu_ppc64le.go` -/

def defaultQemuPath : String := "/usr/libexec/qemu-kvm"

def defaultQemuMachineType (P : Pkg) : String := P.QemuPpc64le

def defaultQemuMachineOptions : String := "accel=kvm,usb=off"

def defaultPCBridgeBus : String := "pci.0"

def qemuPaths (P : Pkg) : List (String × String) :=
  [(P.QemuPpc64le, defaultQemuPath)]

def kernelParams : List Param :=
  [ ⟨"tsc", "reliable"⟩,
    ⟨"no_timer_check", ""⟩,
    ⟨"rcupdate.rcu_expedited", "1"⟩,
    ⟨"i8042.direct", "1"⟩,
    ⟨"i8042.dumbkbd", "1"⟩,
    ⟨"i8042.nopnp", "1"⟩,
    ⟨"i8042.noaux", "1"⟩,
    ⟨"noreplace-smp", ""⟩,
    ⟨"reboot", "k"⟩,
    ⟨"console", "hvc0"⟩,
    ⟨"console", "hvc1"⟩,
    ⟨"iommu", "off"⟩,
    ⟨"cryptomgr.notests", ""⟩,
    ⟨"net.ifnames", "0"⟩,
    ⟨"pci", "lastbus=0"⟩ ]

def supportedQemuMachines (P : Pkg) : List Machine :=
  [ { Type_ := P.QemuPpc64le, Options := defaultQemuMachineOptions } ]

/-- Function `maxQemuVCPUs`: the maximum number of vCPUs supported. -/
def maxQemuVCPUs : Nat := 128 % 4294967296

/-- Function `newQemuArch`. The composite literal names six fields of
`qemuArchBase`; `nestedRun` is left at its zero value. -/
def newQemuArch (P : Pkg) (config : HypervisorConfig) : qemuPpc64le :=
  let machineType := config.HypervisorMachineType
  let machineType := if machineType = "" then defaultQemuMachineType P else machineType
  { machineType := machineType
    nestedRun := false
    qemuPaths := qemuPaths P
    supportedQemuMachines := supportedQemuMachines P
    kernelParamsNonDebug := P.kernelParamsNonDebug
    kernelParamsDebug := P.kernelParamsDebug
    kernelParams := kernelParams }

/-- Method `(*qemuPpc64le).capabilities`. -/
def qemuPpc64le.capabilities (P : Pkg) (q : qemuPpc64le) : Virtcontainers.capabilities :=
  let caps : Virtcontainers.capabilities := { flags := 0 }
  if q.machineType = P.QemuPpc64le then
    caps.setBlockDeviceHotplugSupport P
  else
    caps

/-- The loop of `bridges`: `for i := uint32(0); i < number; i++`, the
slice built so far in `bridges`. The increment is that of a `uint32`. -/
def bridgesLoop (bt : String) (number : Nat) (hn : number < 4294967296) (i : Nat)
    (bridges : List Bridge) : List Bridge :=
  if i < number then
    bridgesLoop bt number hn ((i + 1) % 4294967296)
      (bridges ++ [{ Type_ := bt, ID := bt ++ "-bridge-" ++ fmtDecimal i, Address := [] }])
  else
    bridges
termination_by number - i
decreasing_by
  have hi : (i + 1) % 4294967296 = i + 1 := Nat.mod_eq_of_lt (by omega)
  omega

/-- Method `(*qemuPpc64le).bridges`; `number` is received as a `uint32`. -/
def qemuPpc64le.bridges (P : Pkg) (q : qemuPpc64le) (number : Nat) : List Bridge :=
  if q.machineType = P.QemuPpc64le then
    bridgesLoop P.pciBridge (number % 4294967296) (Nat.mod_lt _ (by decide)) 0 []
  else
    []

/-- Method `(*qemuPpc64le).cpuModel`, with the receiver as the call leaves it: the
string returned, and the provider after the call. -/
def qemuPpc64le.cpuModel (P : Pkg) (q : qemuPpc64le) : String × qemuPpc64le :=
  let cpuModel := P.defaultCPUModel
  let cpuModel := if q.nestedRun then cpuModel ++ ",pmu=off" else cpuModel
  (cpuModel, q)

/-- Method `(*qemuPpc64le).memoryTopology`; both arguments are received as
`uint64`. `Slots` and `MaxMem` are not named in the composite literal. -/
def qemuPpc64le.memoryTopology (_q : qemuPpc64le) (memoryMb _hostMemoryMb : Nat) : Memory :=
  let mem := fmtDecimal (memoryMb % 18446744073709551616) ++ "M"
  { Size := mem, Slots := 0, MaxMem := "" }

/-- Modelled from the spec: `qemuArchBase.appendBlockDevice` (declared in
another file) converts the drive into a VMM block-device descriptor and
appends that descriptor at the end of the device list. -/
def qemuArchBase.appendBlockDevice (_q : qemuArchBase) (devices : List Device)
    (drive : Drive) : List Device :=
  devices ++ [Device.block { ID := drive.ID, File := drive.File, Format := drive.Format }]

/-- Method `(*qemuPpc64le).appendImage`: the returned pair (device list, error)
and the world after the call. -/
def qemuPpc64le.appendImage (q : qemuPpc64le) (w : World) (devices : List Device)
    (path : String) : (List Device × Option GoError) × World :=
  let err := w.stat path
  if isNotExist err then
    (([], err), w)
  else
    match generateRandomBytes 8 w with
    | ((_, some err), w1) => (([], some err), w1)
    | ((randBytes, none), w1) =>
      let id := makeNameID "image" (hexEncodeToString randBytes)
      let drive : Drive := { File := path, Format := "raw", ID := id }
      ((q.toqemuArchBase.appendBlockDevice devices drive, none), w1)

/-- The loop of `appendBridges`: `for idx, b := range bridges`, entered at
index `idx` with the bridges still to visit. -/
def appendBridgesLoop (P : Pkg) (bus : String) :
    Nat → List Bridge → List Device → List Device
  | _, [], devices => devices
  | idx, b :: rest, devices =>
    let t := if b.Type_ = P.pcieBridge then BridgeType.PCIEBridge else BridgeType.PCIBridge
    appendBridgesLoop P bus (idx + 1) rest
      (devices ++ [Device.bridge
        { Type_ := t, Bus := bus, ID := b.ID, Chassis := idx + 1, SHPC := true }])

/-- Method `(*qemuPpc64le).appendBridges` appends to devices the given bridges. -/
def qemuPpc64le.appendBridges (P : Pkg) (_q : qemuPpc64le) (devices : List Device)
    (bridges : List Bridge) : List Device :=
  let bus := defaultPCBridgeBus
  appendBridgesLoop P bus 0 bridges devices

/-! ## Sample values, for evaluating the definitions -/

/-- A choice of the package-level declarations `Pkg` stands for. -/
def samplePkg : Pkg :=
  { QemuPpc64le := "pseries"
    pciBridge := "pci"
    pcieBridge := "pcie"
    defaultCPUModel := "host"
    kernelParamsNonDebug := [⟨"quiet", ""⟩]
    kernelParamsDebug := [⟨"debug", ""⟩]
    blockDeviceHotplugBit := 1 }

/-- The provider `newQemuArch` builds from an empty configuration. -/
def sampleArch : qemuPpc64le := newQemuArch samplePkg { HypervisorMachineType := "" }

/-- A world in which `/img` exists, any other path does not, and the first
read of the entropy source supplies the bytes `0, 17, 34, ...`. -/
def sampleWorld : World :=
  { stat := fun p => if p = "/img" then none else some { notExist := true, text := "ENOENT" }
    rand := fun _ => RandOutcome.ok fun i => 17 * i
    randReads := 0 }

/-- A world in which `os.Stat` fails on `/locked/img` with an error that is
not of the not-exist class (permission denied on the directory), every other
path exists, and the entropy source supplies the bytes `0, 17, 34, ...`. -/
def lockedWorld : World :=
  { stat := fun p =>
      if p = "/locked/img" then some { notExist := false, text := "EACCES" } else none
    rand := fun _ => RandOutcome.ok fun i => 17 * i
    randReads := 0 }

/-- A world in which every path exists and every read of the entropy source
fails. -/
def dryWorld : World :=
  { stat := fun _ => none
    rand := fun _ => RandOutcome.fail { notExist := false, text := "EAGAIN" }
    randReads := 0 }

/-- A world in which every path exists and the entropy source supplies the
bytes `1, 38, 75, 112, 149, 186, 223, 4`, whose two hex digits differ. -/
def mixedWorld : World :=
  { stat := fun _ => none
    rand := fun _ => RandOutcome.ok fun i => 37 * i + 1
    randReads := 0 }

/-! ## Auxiliary definitions used in the statements -/

/-- Value of a decimal digit character. -/
def digitVal (c : Char) : Nat := c.toNat - 48

/-- Reads a list of decimal digit characters back as a number. -/
def decodeDecimal (l : List Char) : Nat :=
  l.foldl (fun a c => 10 * a + digitVal c) 0

/-- The Chassis number of a descriptor, for the bridge descriptors. -/
def Device.chassis? : Device → Option Nat
  | Device.bridge d => some d.Chassis
  | _ => none

/-! ## Lemmas on decimal rendering -/

theorem digitVal_digitChar (k : Nat) (hk : k < 10) : digitVal (Nat.digitChar k) = k := by
  interval_cases k <;> rfl

theorem toDigitsCore_acc (fuel : Nat) : ∀ (n : Nat) (ds : List Char),
    Nat.toDigitsCore 10 fuel n ds = Nat.toDigitsCore 10 fuel n [] ++ ds := by
  induction fuel with
  | zero => intro n ds; simp [Nat.toDigitsCore]
  | succ f ih =>
    intro n ds
    simp only [Nat.toDigitsCore]
    split
    · simp
    · rw [ih (n / 10) (Nat.digitChar (n % 10) :: ds), ih (n / 10) [Nat.digitChar (n % 10)]]
      simp

theorem decodeDecimal_snoc (l : List Char) (c : Char) :
    decodeDecimal (l ++ [c]) = 10 * decodeDecimal l + digitVal c := by
  simp [decodeDecimal, List.foldl_append]

theorem decodeDecimal_toDigitsCore (fuel : Nat) : ∀ n : Nat, n < fuel →
    decodeDecimal (Nat.toDigitsCore 10 fuel n []) = n := by
  induction fuel with
  | zero => intro n hn; omega
  | succ f ih =>
    intro n hn
    simp only [Nat.toDigitsCore]
    split
    · rename_i h0
      have hlt : n % 10 < 10 := Nat.mod_lt _ (by decide)
      simp [decodeDecimal, digitVal_digitChar _ hlt]
      omega
    · rename_i h0
      rw [toDigitsCore_acc, decodeDecimal_snoc, ih (n / 10) (by omega),
        digitVal_digitChar _ (Nat.mod_lt _ (by decide))]
      omega

theorem decodeDecimal_repr (n : Nat) : decodeDecimal (Nat.repr n).data = n := by
  simp only [Nat.repr, Nat.toDigits, List.asString]
  exact decodeDecimal_toDigitsCore (n + 1) n (by omega)

theorem repr_injective (a b : Nat) (h : Nat.repr a = Nat.repr b) : a = b := by
  have := congrArg (fun s => decodeDecimal s.data) h
  simpa [decodeDecimal_repr] using this

theorem append_left_cancel_string (a b c : String) (h : a ++ b = a ++ c) : b = c := by
  have := congrArg String.data h
  simp only [String.data_append] at this
  exact String.ext (List.append_cancel_left this)

/-! ## Closed forms of the two loops -/

theorem bridgesLoop_eq (bt : String) (number : Nat) (hn : number < 4294967296) :
    ∀ (k i : Nat) (acc : List Bridge), i + k = number →
      bridgesLoop bt number hn i acc =
        acc ++ (List.range' i k).map fun j =>
          ({ Type_ := bt, ID := bt ++ "-bridge-" ++ fmtDecimal j, Address := [] } : Bridge) := by
  intro k
  induction k with
  | zero =>
    intro i acc h
    rw [bridgesLoop]
    simp
    omega
  | succ k ih =>
    intro i acc h
    have hi : (i + 1) % 4294967296 = i + 1 := Nat.mod_eq_of_lt (by omega)
    rw [bridgesLoop, if_pos (by omega), hi, ih (i + 1) _ (by omega)]
    simp [List.range'_succ]

theorem appendBridgesLoop_eq (P : Pkg) (bus : String) :
    ∀ (bs : List Bridge) (idx : Nat) (ds : List Device),
      appendBridgesLoop P bus idx bs ds =
        ds ++ (bs.enumFrom idx).map fun ib =>
          Device.bridge
            { Type_ := if ib.2.Type_ = P.pcieBridge then BridgeType.PCIEBridge
                       else BridgeType.PCIBridge
              Bus := bus, ID := ib.2.ID, Chassis := ib.1 + 1, SHPC := true } := by
  intro bs
  induction bs with
  | nil => intro idx ds; simp [appendBridgesLoop]
  | cons b rest ih =>
    intro idx ds
    simp [appendBridgesLoop, ih, List.enumFrom]

theorem bridges_eq (P : Pkg) (q : qemuPpc64le) (n : Nat)
    (hm : q.machineType = P.QemuPpc64le) (hn : n < 4294967296) :
    q.bridges P n = (List.range' 0 n).map fun j =>
      ({ Type_ := P.pciBridge, ID := P.pciBridge ++ "-bridge-" ++ Nat.repr j,
         Address := [] } : Bridge) := by
  have hmod : n % 4294967296 = n := Nat.mod_eq_of_lt hn
  simp only [qemuPpc64le.bridges, if_pos hm]
  rw [bridgesLoop_eq P.pciBridge (n % 4294967296) (Nat.mod_lt _ (by decide))
    (n % 4294967296) 0 [] (by omega), hmod]
  simp [fmtDecimal]

theorem appendBridges_eq (P : Pkg) (q : qemuPpc64le) (ds : List Device) (bs : List Bridge) :
    q.appendBridges P ds bs =
      ds ++ (bs.enumFrom 0).map fun ib =>
        Device.bridge
          { Type_ := if ib.2.Type_ = P.pcieBridge then BridgeType.PCIEBridge
                     else BridgeType.PCIBridge
            Bus := "pci.0", ID := ib.2.ID, Chassis := ib.1 + 1, SHPC := true } := by
  simp [qemuPpc64le.appendBridges, appendBridgesLoop_eq, defaultPCBridgeBus]

theorem bridges_getElem_some (P : Pkg) (q : qemuPpc64le) (n : Nat)
    (hm : q.machineType = P.QemuPpc64le) (hn : n < 4294967296) (i : Nat) (hi : i < n) :
    (q.bridges P n)[i]? =
      some { Type_ := P.pciBridge, ID := P.pciBridge ++ "-bridge-" ++ Nat.repr i,
             Address := [] } := by
  rw [bridges_eq P q n hm hn]
  simp [List.getElem?_map, List.getElem?_range', hi]

theorem bridges_length (P : Pkg) (q : qemuPpc64le) (n : Nat)
    (hm : q.machineType = P.QemuPpc64le) (hn : n < 4294967296) :
    (q.bridges P n).length = n := by
  rw [bridges_eq P q n hm hn]
  simp

theorem bridgeID_injective (bt : String) (i j : Nat)
    (h : bt ++ "-bridge-" ++ Nat.repr i = bt ++ "-bridge-" ++ Nat.repr j) : i = j :=
  repr_injective i j (append_left_cancel_string _ _ _ h)

theorem appendBridges_drop (P : Pkg) (q : qemuPpc64le) (ds : List Device) (bs : List Bridge) :
    (q.appendBridges P ds bs).drop ds.length =
      (bs.enumFrom 0).map fun ib =>
        Device.bridge
          { Type_ := if ib.2.Type_ = P.pcieBridge then BridgeType.PCIEBridge
                     else BridgeType.PCIBridge
            Bus := "pci.0", ID := ib.2.ID, Chassis := ib.1 + 1, SHPC := true } := by
  rw [appendBridges_eq, List.drop_left]

theorem appendBridges_chassis_eq (P : Pkg) (q : qemuPpc64le) (ds : List Device)
    (bs : List Bridge) :
    ((q.appendBridges P ds bs).drop ds.length).map Device.chassis? =
      (List.range' 1 bs.length).map some := by
  rw [appendBridges_drop]
  apply List.ext_getElem?
  intro i
  simp only [List.getElem?_map, List.getElem?_enumFrom, Option.map_map]
  by_cases hi : i < bs.length
  · simp [List.getElem?_eq_getElem hi, List.getElem?_range' _ _ hi, Device.chassis?,
      Nat.add_comm]
  · have h1 : bs[i]? = none := List.getElem?_eq_none (by omega)
    have h2 : (List.range' 1 bs.length)[i]? = none :=
      List.getElem?_eq_none (by simp; omega)
    simp [h1, h2]

theorem nodup_map_some_range' (s n : Nat) : ((List.range' s n).map some).Nodup :=
  List.Nodup.map (fun _ _ h => Option.some.inj h) (List.nodup_range' s n)

theorem hextable_getD_mem (k : Nat) : hextable.getD k '0' ∈ hextable := by
  by_cases hk : k < 16
  · interval_cases k <;> decide
  · rw [List.getD_eq_default _ _ (by simp [hextable]; omega)]
    decide

theorem hexEncodeToString_length (src : List Nat) :
    (hexEncodeToString src).length = 2 * src.length := by
  induction src with
  | nil => rfl
  | cons v rest ih =>
    simp only [hexEncodeToString, String.length, List.flatMap_cons, List.length_append,
      List.length_cons, List.length_nil] at ih ⊢
    omega

theorem hexEncodeToString_mem (src : List Nat) :
    ∀ c ∈ (hexEncodeToString src).data, c ∈ hextable := by
  intro c hc
  simp only [hexEncodeToString, List.mem_flatMap, List.mem_cons, List.mem_singleton,
    List.not_mem_nil, or_false] at hc
  obtain ⟨v, _, hv⟩ := hc
  rcases hv with h | h <;> rw [h] <;> exact hextable_getD_mem _

theorem fromHexChar_hextable (k : Nat) (hk : k < 16) :
    fromHexChar (hextable.getD k '0') = some k := by
  interval_cases k <;> rfl

theorem hexDecode_hexEncodeToString (src : List Nat) (hsrc : ∀ v ∈ src, v < 256) :
    hexDecode (hexEncodeToString src).data = some src := by
  induction src with
  | nil => rfl
  | cons v rest ih =>
    have hv : v < 256 := hsrc v (List.mem_cons_self v rest)
    have hrest : hexDecode (hexEncodeToString rest).data = some rest :=
      ih fun u hu => hsrc u (List.mem_cons_of_mem v hu)
    have hsplit : (hexEncodeToString (v :: rest)).data =
        hextable.getD (v / 16) '0' :: hextable.getD (v % 16) '0' ::
          (hexEncodeToString rest).data := by
      simp [hexEncodeToString, List.flatMap_cons]
    rw [hsplit, hexDecode, fromHexChar_hextable (v / 16) (by omega),
      fromHexChar_hextable (v % 16) (by omega), hrest]
    simp only [Option.some.injEq, List.cons.injEq, and_true]
    omega

theorem randomBytes_lt (supply : Nat → Nat) (n : Nat) :
    ∀ v ∈ (List.range n).map (fun i => supply i % 256), v < 256 := by
  intro v hv
  simp only [List.mem_map] at hv
  obtain ⟨i, _, rfl⟩ := hv
  exact Nat.mod_lt _ (by decide)

theorem newQemuArch_machineType_eq (P : Pkg) (config : HypervisorConfig) :
    (newQemuArch P config).machineType =
      if config.HypervisorMachineType = "" then P.QemuPpc64le
      else config.HypervisorMachineType := rfl

theorem capabilities_isSet_iff (P : Pkg) (q : qemuPpc64le) (k : Nat) :
    (q.capabilities P).isSet k = true ↔
      (q.machineType = P.QemuPpc64le ∧ k = P.blockDeviceHotplugBit) := by
  by_cases hm : q.machineType = P.QemuPpc64le
  · simp only [qemuPpc64le.capabilities, if_pos hm, capabilities.isSet,
      capabilities.setBlockDeviceHotplugSupport, Nat.zero_or, Nat.one_shiftLeft,
      Nat.testBit_two_pow, decide_eq_true_eq]
    exact ⟨fun h => ⟨hm, h.symm⟩, fun h => h.2.symm⟩
  · simp [qemuPpc64le.capabilities, hm, capabilities.isSet]

theorem appendImage_of_notExist (q : qemuPpc64le) (w : World) (devices : List Device)
    (path : String) (hne : isNotExist (w.stat path) = true) :
    q.appendImage w devices path = (([], w.stat path), w) := by
  simp [qemuPpc64le.appendImage, hne]

theorem appendImage_of_rand_error (q : qemuPpc64le) (w : World) (devices : List Device)
    (path : String) (e : GoError) (hne : isNotExist (w.stat path) = false)
    (hrand : (generateRandomBytes 8 w).1.2 = some e) :
    (q.appendImage w devices path).1 = ([], some e) := by
  unfold qemuPpc64le.appendImage
  simp only [hne, Bool.false_eq_true, if_false]
  rcases hg : generateRandomBytes 8 w with ⟨⟨bytes, err⟩, w1⟩
  rw [hg] at hrand
  simp only at hrand
  subst hrand
  rfl

theorem appendImage_of_rand_ok (q : qemuPpc64le) (w : World) (devices : List Device)
    (path : String) (hne : isNotExist (w.stat path) = false)
    (hrand : (generateRandomBytes 8 w).1.2 = none) :
    (q.appendImage w devices path).1 =
      (q.toqemuArchBase.appendBlockDevice devices
        { File := path, Format := "raw",
          ID := makeNameID "image" (hexEncodeToString (generateRandomBytes 8 w).1.1) },
       none) := by
  unfold qemuPpc64le.appendImage
  simp only [hne, Bool.false_eq_true, if_false]
  rcases hg : generateRandomBytes 8 w with ⟨⟨bytes, err⟩, w1⟩
  rw [hg] at hrand
  simp only at hrand
  subst hrand
  rfl

theorem bridges_type (P : Pkg) (q : qemuPpc64le) (n : Nat) (hn : n < 4294967296) :
    ∀ b ∈ q.bridges P n, b.Type_ = P.pciBridge := by
  intro b hb
  by_cases hm : q.machineType = P.QemuPpc64le
  · rw [bridges_eq P q n hm hn] at hb
    simp only [List.mem_map] at hb
    obtain ⟨j, _, rfl⟩ := hb
    rfl
  · simp [qemuPpc64le.bridges, hm] at hb

theorem appendBridges_getElem_some (P : Pkg) (q : qemuPpc64le) (ds : List Device)
    (bs : List Bridge) (i : Nat) (b : Bridge) (hb : bs[i]? = some b) :
    (q.appendBridges P ds bs)[ds.length + i]? =
      some (Device.bridge
        { Type_ := if b.Type_ = P.pcieBridge then BridgeType.PCIEBridge
                   else BridgeType.PCIBridge
          Bus := "pci.0", ID := b.ID, Chassis := i + 1, SHPC := true }) := by
  rw [appendBridges_eq, List.getElem?_append_right (by omega)]
  simp [List.getElem?_map, List.getElem?_enumFrom, hb]

/-! ## The claims -/

/-- C1: on a provider whose machine type is the ppc64le profile, `bridges(n)`
returns exactly `n` bridges for every uint32 `n`, and bridge `i` has type
`pciBridge`, the ID made of the bridge-kind tag, `"-bridge-"` and the decimal
rendering of `i`, and an empty address map. -/
theorem bridges_ppc64le (P : Pkg) (q : qemuPpc64le) (n : Nat)
    (hm : q.machineType = P.QemuPpc64le) (hn : n < 4294967296) :
    (q.bridges P n).length = n ∧
    ∀ i, i < n → (q.bridges P n)[i]? =
      some { Type_ := P.pciBridge, ID := P.pciBridge ++ "-bridge-" ++ Nat.repr i,
             Address := [] } :=
  ⟨bridges_length P q n hm hn, fun i hi => bridges_getElem_some P q n hm hn i hi⟩

theorem bridges_ppc64le_witness :
    sampleArch.machineType = samplePkg.QemuPpc64le ∧ 3 < 4294967296 ∧
    (sampleArch.bridges samplePkg 3).length = 3 ∧
    (sampleArch.bridges samplePkg 3)[2]? =
      some { Type_ := "pci", ID := "pci-bridge-2", Address := [] } :=
  ⟨rfl, by decide, (bridges_ppc64le samplePkg sampleArch 3 rfl (by decide)).1,
    (bridges_ppc64le samplePkg sampleArch 3 rfl (by decide)).2 2 (by decide)⟩

/-- C2: on the ppc64le profile the IDs of the bridges returned by `bridges(n)`
are pairwise distinct: for `i, j < n` with `i ≠ j` the ID of bridge `i` differs
from the ID of bridge `j`; the list of IDs has no duplicate. -/
theorem bridges_ids_distinct (P : Pkg) (q : qemuPpc64le) (n : Nat)
    (hm : q.machineType = P.QemuPpc64le) (hn : n < 4294967296) :
    (∀ i j, i < n → j < n → i ≠ j →
      ((q.bridges P n)[i]?).map Bridge.ID ≠ ((q.bridges P n)[j]?).map Bridge.ID) ∧
    ((q.bridges P n).map Bridge.ID).Nodup := by
  constructor
  · intro i j hi hj hij
    rw [bridges_getElem_some P q n hm hn i hi, bridges_getElem_some P q n hm hn j hj]
    intro heq
    simp only [Option.map_some', Option.some.injEq] at heq
    exact hij (bridgeID_injective _ i j heq)
  · rw [bridges_eq P q n hm hn, List.map_map]
    refine List.Nodup.map ?_ (List.nodup_range' 0 n)
    intro i j heq
    exact bridgeID_injective _ i j heq

theorem bridges_ids_distinct_witness :
    sampleArch.machineType = samplePkg.QemuPpc64le ∧ 3 < 4294967296 ∧
    ((sampleArch.bridges samplePkg 3)[0]?).map Bridge.ID ≠
      ((sampleArch.bridges samplePkg 3)[2]?).map Bridge.ID ∧
    ((sampleArch.bridges samplePkg 3).map Bridge.ID).Nodup :=
  ⟨rfl, by decide,
    (bridges_ids_distinct samplePkg sampleArch 3 rfl (by decide)).1 0 2
      (by decide) (by decide) (by decide),
    (bridges_ids_distinct samplePkg sampleArch 3 rfl (by decide)).2⟩

/-- C3: for every device list and every bridge list of length `n`, the
descriptors that `appendBridges` appends carry the Chassis numbers `1, 2, ..., n`
in input order, whatever the device list held before; they are therefore
pairwise different and positive. In particular this holds of the output of
`bridges(n)` on the ppc64le profile, whose batch is numbered `1..n`. -/
theorem appendBridges_chassis (P : Pkg) (q : qemuPpc64le) (ds : List Device)
    (bs : List Bridge) :
    ((q.appendBridges P ds bs).drop ds.length).map Device.chassis? =
      (List.range' 1 bs.length).map some ∧
    (((q.appendBridges P ds bs).drop ds.length).map Device.chassis?).Nodup ∧
    (∀ c ∈ ((q.appendBridges P ds bs).drop ds.length).map Device.chassis?,
      ∃ k, c = some k ∧ 0 < k) ∧
    (∀ n, q.machineType = P.QemuPpc64le → n < 4294967296 →
      ((q.appendBridges P ds (q.bridges P n)).drop ds.length).map Device.chassis? =
        (List.range' 1 n).map some) := by
  refine ⟨appendBridges_chassis_eq P q ds bs, ?_, ?_, ?_⟩
  · rw [appendBridges_chassis_eq]
    exact nodup_map_some_range' 1 bs.length
  · rw [appendBridges_chassis_eq]
    intro c hc
    simp only [List.mem_map, List.mem_range'_1] at hc
    obtain ⟨k, hk, rfl⟩ := hc
    exact ⟨k, rfl, by omega⟩
  · intro n hm hn
    rw [appendBridges_chassis_eq, bridges_length P q n hm hn]

theorem appendBridges_chassis_witness :
    sampleArch.machineType = samplePkg.QemuPpc64le ∧ 3 < 4294967296 ∧
    ((sampleArch.appendBridges samplePkg [Device.other "net"]
        (sampleArch.bridges samplePkg 3)).drop 1).map Device.chassis? =
      [some 1, some 2, some 3] :=
  ⟨rfl, by decide,
    (appendBridges_chassis samplePkg sampleArch [Device.other "net"] []).2.2.2 3 rfl
      (by decide)⟩

/-- C4: for every machine type other than the ppc64le profile and every `n`,
`bridges(n)` returns the empty (nil) list; the function has no error result. -/
theorem bridges_other_machine (P : Pkg) (q : qemuPpc64le) (n : Nat)
    (hm : q.machineType ≠ P.QemuPpc64le) :
    q.bridges P n = [] := by
  simp [qemuPpc64le.bridges, hm]

theorem bridges_other_machine_witness :
    (newQemuArch samplePkg { HypervisorMachineType := "pc" }).machineType
      ≠ samplePkg.QemuPpc64le ∧
    (newQemuArch samplePkg { HypervisorMachineType := "pc" }).bridges samplePkg 5 = [] :=
  ⟨by decide,
    bridges_other_machine samplePkg (newQemuArch samplePkg { HypervisorMachineType := "pc" }) 5
      (by decide)⟩

/-- C5: `capabilities()` is a function of the machine type alone: two
providers with the same machine type have the same capabilities; on the ppc64le
profile the block-device hot-plug capability is set and no other capability is;
on every other machine type the capability set is empty. -/
theorem capabilities_by_machine_type (P : Pkg) (q : qemuPpc64le) :
    (∀ q2 : qemuPpc64le, q2.machineType = q.machineType →
      q2.capabilities P = q.capabilities P) ∧
    (q.machineType = P.QemuPpc64le →
      ∀ k, (q.capabilities P).isSet k = true ↔ k = P.blockDeviceHotplugBit) ∧
    (q.machineType ≠ P.QemuPpc64le →
      q.capabilities P = { flags := 0 } ∧ ∀ k, (q.capabilities P).isSet k = false) := by
  refine ⟨?_, ?_, ?_⟩
  · intro q2 h
    simp [qemuPpc64le.capabilities, h]
  · intro hm k
    simp only [qemuPpc64le.capabilities, if_pos hm, capabilities.isSet,
      capabilities.setBlockDeviceHotplugSupport, Nat.zero_or, Nat.one_shiftLeft,
      Nat.testBit_two_pow, decide_eq_true_eq]
    exact eq_comm
  · intro hm
    simp [qemuPpc64le.capabilities, hm, capabilities.isSet]

theorem capabilities_by_machine_type_witness :
    ((sampleArch.capabilities samplePkg).isSet 1 = true ↔ 1 = samplePkg.blockDeviceHotplugBit) ∧
    ((sampleArch.capabilities samplePkg).isSet 0 = true ↔ 0 = samplePkg.blockDeviceHotplugBit) ∧
    (newQemuArch samplePkg { HypervisorMachineType := "pc" }).capabilities samplePkg
      = { flags := 0 } :=
  ⟨(capabilities_by_machine_type samplePkg sampleArch).2.1 rfl 1,
    (capabilities_by_machine_type samplePkg sampleArch).2.1 rfl 0,
    ((capabilities_by_machine_type samplePkg
      (newQemuArch samplePkg { HypervisorMachineType := "pc" })).2.2 (by decide)).1⟩

/-- C6: `cpuModel()` returns exactly the default CPU model when `nestedRun` is
false and the default CPU model followed by `",pmu=off"` when `nestedRun` is
true; the provider is the same after the call, so calling again returns the
same string. -/
theorem cpuModel_spec (P : Pkg) (q : qemuPpc64le) :
    (q.nestedRun = false → (q.cpuModel P).1 = P.defaultCPUModel) ∧
    (q.nestedRun = true → (q.cpuModel P).1 = P.defaultCPUModel ++ ",pmu=off") ∧
    (q.cpuModel P).2 = q ∧
    ((q.cpuModel P).2.cpuModel P).1 = (q.cpuModel P).1 := by
  refine ⟨?_, ?_, rfl, rfl⟩
  · intro h
    simp [qemuPpc64le.cpuModel, h]
  · intro h
    simp [qemuPpc64le.cpuModel, h]

theorem cpuModel_spec_witness :
    (sampleArch.cpuModel samplePkg).1 = "host" ∧
    (({ sampleArch with nestedRun := true } : qemuPpc64le).cpuModel samplePkg).1
      = "host,pmu=off" :=
  ⟨(cpuModel_spec samplePkg sampleArch).1 rfl,
    (cpuModel_spec samplePkg { sampleArch with nestedRun := true }).2.1 rfl⟩

/-- C7: for all uint64 `memoryMb` and `hostMemoryMb`, `memoryTopology` returns
a `Memory` whose `Size` is the decimal rendering of `memoryMb` followed by
`"M"`, whose `Slots` and `MaxMem` are at their zero values, and which is the
same for every other `hostMemoryMb`. -/
theorem memoryTopology_spec (q : qemuPpc64le) (memoryMb hostMemoryMb : Nat)
    (hm : memoryMb < 18446744073709551616) (hh : hostMemoryMb < 18446744073709551616) :
    q.memoryTopology memoryMb hostMemoryMb =
      { Size := Nat.repr memoryMb ++ "M", Slots := 0, MaxMem := "" } ∧
    ∀ host2, host2 < 18446744073709551616 →
      q.memoryTopology memoryMb host2 = q.memoryTopology memoryMb hostMemoryMb := by
  have _ := hh
  refine ⟨?_, fun _ _ => rfl⟩
  simp [qemuPpc64le.memoryTopology, fmtDecimal, Nat.mod_eq_of_lt hm]

theorem memoryTopology_spec_witness :
    sampleArch.memoryTopology 512 2048 = { Size := "512M", Slots := 0, MaxMem := "" } ∧
    sampleArch.memoryTopology 512 7 = sampleArch.memoryTopology 512 2048 :=
  ⟨(memoryTopology_spec sampleArch 512 2048 (by decide) (by decide)).1,
    (memoryTopology_spec sampleArch 512 2048 (by decide) (by decide)).2 7 (by decide)⟩

/-- C8: for every device list and every path whose existence check reports
that the path does not exist, `appendImage` returns exactly the error of the
existence check and the nil device list, and it does not consult the random
source: the world, with its count of reads, is as before, and the result is the
same whatever the random source would have supplied. -/
theorem appendImage_not_exist (q : qemuPpc64le) (w : World) (devices : List Device)
    (path : String) (hne : isNotExist (w.stat path) = true) :
    (q.appendImage w devices path).1 = ([], w.stat path) ∧
    (w.stat path).isSome = true ∧
    (q.appendImage w devices path).2.randReads = w.randReads ∧
    ∀ rand2 : Nat → RandOutcome,
      (q.appendImage { w with rand := rand2 } devices path).1 = ([], w.stat path) := by
  refine ⟨?_, ?_, ?_, ?_⟩
  · simp [qemuPpc64le.appendImage, hne]
  · cases hs : w.stat path with
    | none => rw [hs] at hne; simp [isNotExist] at hne
    | some e => rfl
  · simp [qemuPpc64le.appendImage, hne]
  · intro rand2
    simp [qemuPpc64le.appendImage, hne]

theorem appendImage_not_exist_witness :
    isNotExist (sampleWorld.stat "/nope") = true ∧
    (sampleArch.appendImage sampleWorld [Device.other "net"] "/nope").1 =
      ([], some { notExist := true, text := "ENOENT" }) ∧
    (sampleArch.appendImage sampleWorld [Device.other "net"] "/nope").2.randReads = 0 :=
  ⟨by decide,
    (appendImage_not_exist sampleArch sampleWorld [Device.other "net"] "/nope" (by decide)).1,
    (appendImage_not_exist sampleArch sampleWorld [Device.other "net"] "/nope"
      (by decide)).2.2.1⟩

/-- C9: for every device list and every existing path, when the read of 8
bytes from the random source succeeds, `appendImage` returns no error and the
input list followed by exactly one block-device descriptor, built from the
drive with `File = path`, `Format = "raw"` and `ID = "image-"` followed by the
hex encoding of the 8 bytes, which is 16 characters of `0123456789abcdef` that
`hex.DecodeString` reads back as exactly those 8 bytes; the result has length
`len(list)+1` and begins with the input list. -/
theorem appendImage_success (q : qemuPpc64le) (w : World) (devices : List Device)
    (path : String) (supply : Nat → Nat)
    (hstat : w.stat path = none) (hrand : w.rand w.randReads = RandOutcome.ok supply) :
    (q.appendImage w devices path).1 =
      (devices ++ [Device.block
        { ID := "image-" ++ hexEncodeToString ((List.range 8).map fun i => supply i % 256)
          File := path
          Format := "raw" }], none) ∧
    (hexEncodeToString ((List.range 8).map fun i => supply i % 256)).length = 16 ∧
    (∀ c ∈ (hexEncodeToString ((List.range 8).map fun i => supply i % 256)).data,
      c ∈ "0123456789abcdef".data) ∧
    (q.appendImage w devices path).1.1.length = devices.length + 1 ∧
    (q.appendImage w devices path).1.1.take devices.length = devices ∧
    hexDecode (hexEncodeToString ((List.range 8).map fun i => supply i % 256)).data =
      some [supply 0 % 256, supply 1 % 256, supply 2 % 256, supply 3 % 256,
            supply 4 % 256, supply 5 % 256, supply 6 % 256, supply 7 % 256] := by
  have hres : (q.appendImage w devices path).1 =
      (devices ++ [Device.block
        { ID := "image-" ++ hexEncodeToString ((List.range 8).map fun i => supply i % 256)
          File := path
          Format := "raw" }], none) := by
    simp [qemuPpc64le.appendImage, hstat, isNotExist, generateRandomBytes, hrand, makeNameID,
      qemuArchBase.appendBlockDevice]
  refine ⟨hres, ?_, ?_, ?_, ?_, ?_⟩
  · rw [hexEncodeToString_length]
    simp
  · exact hexEncodeToString_mem _
  · rw [hres]
    simp
  · rw [hres]
    simp
  · rw [hexDecode_hexEncodeToString _ (randomBytes_lt supply 8)]
    rfl

theorem appendImage_success_witness :
    sampleWorld.stat "/img" = none ∧
    (sampleArch.appendImage sampleWorld [Device.other "net"] "/img").1 =
      ([Device.other "net",
        Device.block { ID := "image-0011223344556677", File := "/img", Format := "raw" }],
       none) ∧
    hexDecode "0011223344556677".data = some [0, 17, 34, 51, 68, 85, 102, 119] ∧
    (sampleArch.appendImage mixedWorld [] "/boot/vm.img").1 =
      ([Device.block
        { ID := "image-01264b7095badf04", File := "/boot/vm.img", Format := "raw" }],
       none) ∧
    hexDecode "01264b7095badf04".data = some [1, 38, 75, 112, 149, 186, 223, 4] :=
  ⟨by decide,
    (appendImage_success sampleArch sampleWorld [Device.other "net"] "/img" (fun i => 17 * i)
      (by decide) rfl).1.trans (by decide),
    (appendImage_success sampleArch sampleWorld [Device.other "net"] "/img" (fun i => 17 * i)
      (by decide) rfl).2.2.2.2.2,
    (appendImage_success sampleArch mixedWorld [] "/boot/vm.img" (fun i => 37 * i + 1)
      rfl rfl).1.trans (by decide),
    (appendImage_success sampleArch mixedWorld [] "/boot/vm.img" (fun i => 37 * i + 1)
      rfl rfl).2.2.2.2.2⟩

/-- C10: for every device list `ds` and bridge list `bs`, `appendBridges`
returns `ds` followed by exactly `len(bs)` descriptors, one bridge-device
descriptor per bridge in input order, each on the default bus `"pci.0"`, with
SHPC enabled and with the ID of its bridge; with no bridge the list is
returned as it is. -/
theorem appendBridges_spec (P : Pkg) (q : qemuPpc64le) (ds : List Device)
    (bs : List Bridge) :
    (q.appendBridges P ds bs).take ds.length = ds ∧
    (q.appendBridges P ds bs).length = ds.length + bs.length ∧
    (∀ i b, bs[i]? = some b →
      ∃ d, (q.appendBridges P ds bs)[ds.length + i]? = some (Device.bridge d) ∧
        d.Bus = defaultPCBridgeBus ∧ d.SHPC = true ∧ d.ID = b.ID) ∧
    defaultPCBridgeBus = "pci.0" ∧
    q.appendBridges P ds [] = ds := by
  refine ⟨?_, ?_, ?_, rfl, ?_⟩
  · rw [appendBridges_eq, List.take_left]
  · rw [appendBridges_eq]
    simp
  · intro i b hb
    rw [appendBridges_eq]
    refine ⟨{ Type_ := if b.Type_ = P.pcieBridge then BridgeType.PCIEBridge
                       else BridgeType.PCIBridge
              Bus := "pci.0", ID := b.ID, Chassis := i + 1, SHPC := true }, ?_, rfl, rfl, rfl⟩
    rw [List.getElem?_append_right (by omega)]
    simp [List.getElem?_map, List.getElem?_enumFrom, hb]
  · rw [appendBridges_eq]
    simp

theorem appendBridges_spec_witness :
    (sampleArch.appendBridges samplePkg [Device.other "net"]
        [{ Type_ := "pci", ID := "b0", Address := [] },
         { Type_ := "pcie", ID := "b1", Address := [] }]).length = 3 ∧
    ∃ d, (sampleArch.appendBridges samplePkg [Device.other "net"]
        [{ Type_ := "pci", ID := "b0", Address := [] },
         { Type_ := "pcie", ID := "b1", Address := [] }])[1 + 1]? = some (Device.bridge d) ∧
      d.Bus = defaultPCBridgeBus ∧ d.SHPC = true ∧ d.ID = "b1" :=
  ⟨(appendBridges_spec samplePkg sampleArch [Device.other "net"]
      [{ Type_ := "pci", ID := "b0", Address := [] },
       { Type_ := "pcie", ID := "b1", Address := [] }]).2.1,
    (appendBridges_spec samplePkg sampleArch [Device.other "net"]
      [{ Type_ := "pci", ID := "b0", Address := [] },
       { Type_ := "pcie", ID := "b1", Address := [] }]).2.2.1 1
      { Type_ := "pcie", ID := "b1", Address := [] } rfl⟩

/-- C11: for every hypervisor configuration, `newQemuArch` returns a provider
whose machine type is the requested machine type when that string is non-empty
and the compiled-in default, the ppc64le profile, when it is empty.
Construction is a total function with no error result: an unrecognized machine
type is taken over as it is. -/
theorem newQemuArch_machineType (P : Pkg) (config : HypervisorConfig) :
    (config.HypervisorMachineType ≠ "" →
      (newQemuArch P config).machineType = config.HypervisorMachineType) ∧
    (config.HypervisorMachineType = "" →
      (newQemuArch P config).machineType = defaultQemuMachineType P) ∧
    defaultQemuMachineType P = P.QemuPpc64le := by
  refine ⟨?_, ?_, rfl⟩
  · intro h
    rw [newQemuArch_machineType_eq, if_neg h]
  · intro h
    rw [newQemuArch_machineType_eq, if_pos h]
    rfl

theorem newQemuArch_machineType_witness :
    (newQemuArch samplePkg { HypervisorMachineType := "q35" }).machineType = "q35" ∧
    (newQemuArch samplePkg { HypervisorMachineType := "" }).machineType = "pseries" :=
  ⟨(newQemuArch_machineType samplePkg { HypervisorMachineType := "q35" }).1 (by decide),
    (newQemuArch_machineType samplePkg { HypervisorMachineType := "" }).2.1 rfl⟩

/-- C12, as stated, fails: from a configuration that requests the machine type
`"pc"`, `newQemuArch` builds a provider whose machine type is neither the
type of a supported machine nor the default machine type. -/
theorem newQemuArch_machineType_unsupported :
    ¬ ((newQemuArch samplePkg { HypervisorMachineType := "pc" }).machineType ∈
          (newQemuArch samplePkg { HypervisorMachineType := "pc" }).supportedQemuMachines.map
            Machine.Type_ ∨
        (newQemuArch samplePkg { HypervisorMachineType := "pc" }).machineType =
          defaultQemuMachineType samplePkg) := by
  decide

/-- C12, amended: the machine type of the provider returned by `newQemuArch`
is a member of the provider's supported-machine list (by Type) or equal to the
default machine type exactly when the requested machine type is empty or is
the ppc64le profile; any other requested machine type is taken over without
validation. -/
theorem newQemuArch_machineType_supported_iff (P : Pkg) (config : HypervisorConfig) :
    ((newQemuArch P config).machineType ∈
        (newQemuArch P config).supportedQemuMachines.map Machine.Type_ ∨
      (newQemuArch P config).machineType = defaultQemuMachineType P) ↔
    (config.HypervisorMachineType = "" ∨ config.HypervisorMachineType = P.QemuPpc64le) := by
  have hs : (newQemuArch P config).supportedQemuMachines.map Machine.Type_
      = [P.QemuPpc64le] := rfl
  rw [hs, newQemuArch_machineType_eq]
  by_cases h : config.HypervisorMachineType = ""
  · simp [h, defaultQemuMachineType]
  · simp [h, defaultQemuMachineType]

theorem newQemuArch_machineType_supported_iff_witness :
    (newQemuArch samplePkg { HypervisorMachineType := "" }).machineType ∈
        (newQemuArch samplePkg { HypervisorMachineType := "" }).supportedQemuMachines.map
          Machine.Type_ ∨
      (newQemuArch samplePkg { HypervisorMachineType := "" }).machineType =
        defaultQemuMachineType samplePkg :=
  (newQemuArch_machineType_supported_iff samplePkg { HypervisorMachineType := "" }).2
    (Or.inl rfl)

/-- C13: for every device list and every existing path, when the read of 8
bytes from the random source fails, `appendImage` returns exactly that error
and the nil device list, never a list with something appended. -/
theorem appendImage_random_failure (q : qemuPpc64le) (w : World) (devices : List Device)
    (path : String) (e : GoError) (hstat : w.stat path = none)
    (hrand : (generateRandomBytes 8 w).1.2 = some e) :
    (q.appendImage w devices path).1 = ([], some e) :=
  appendImage_of_rand_error q w devices path e (by rw [hstat]; rfl) hrand

theorem appendImage_random_failure_witness :
    dryWorld.stat "/img" = none ∧
    (generateRandomBytes 8 dryWorld).1.2 = some { notExist := false, text := "EAGAIN" } ∧
    (sampleArch.appendImage dryWorld [Device.other "net"] "/img").1 =
      ([], some { notExist := false, text := "EAGAIN" }) :=
  ⟨rfl, rfl,
    appendImage_random_failure sampleArch dryWorld [Device.other "net"] "/img"
      { notExist := false, text := "EAGAIN" } rfl rfl⟩

/-- C14, as stated, fails: `os.Stat` returns an error on `/locked/img`
(permission denied, not of the not-exist class), and `appendImage` still
returns no error and a list with a block device for that path appended. -/
theorem appendImage_stat_error_succeeds :
    lockedWorld.stat "/locked/img" = some { notExist := false, text := "EACCES" } ∧
    (sampleArch.appendImage lockedWorld [] "/locked/img").1 =
      ([Device.block
        { ID := "image-0011223344556677", File := "/locked/img", Format := "raw" }],
       none) := by
  decide

/-- C14, amended: for every device list and path, if the existence check on
the path reports that the path does not exist, `appendImage` returns that
error and the nil device list, so no block device is appended; equivalently,
whenever `appendImage` succeeds the existence check did not report that the
path does not exist. -/
theorem appendImage_guard (q : qemuPpc64le) (w : World) (devices : List Device)
    (path : String) :
    (isNotExist (w.stat path) = true →
      (q.appendImage w devices path).1.1 = [] ∧
      (q.appendImage w devices path).1.2 = w.stat path ∧
      (q.appendImage w devices path).1.2 ≠ none) ∧
    ((q.appendImage w devices path).1.2 = none → isNotExist (w.stat path) = false) := by
  have key : isNotExist (w.stat path) = true →
      (q.appendImage w devices path).1.1 = [] ∧
      (q.appendImage w devices path).1.2 = w.stat path ∧
      (q.appendImage w devices path).1.2 ≠ none := by
    intro hne
    rw [appendImage_of_notExist q w devices path hne]
    refine ⟨rfl, rfl, ?_⟩
    intro hnone
    simp only at hnone
    rw [hnone] at hne
    simp [isNotExist] at hne
  refine ⟨key, ?_⟩
  intro hok
  cases hne : isNotExist (w.stat path) with
  | false => rfl
  | true => exact absurd hok (key hne).2.2

theorem appendImage_guard_witness :
    isNotExist (sampleWorld.stat "/nope") = true ∧
    (sampleArch.appendImage sampleWorld [Device.other "net"] "/nope").1.1 = [] ∧
    (sampleArch.appendImage sampleWorld [Device.other "net"] "/img").1.2 = none ∧
    isNotExist (sampleWorld.stat "/img") = false :=
  ⟨by decide,
    ((appendImage_guard sampleArch sampleWorld [Device.other "net"] "/nope").1 (by decide)).1,
    by decide,
    (appendImage_guard sampleArch sampleWorld [Device.other "net"] "/img").2 (by decide)⟩

/-- C15: for every bridge `b` of the list given to `appendBridges`, the
descriptor emitted for it has the VMM PCI-Express bridge kind when `b.Type` is
`pcieBridge`, the VMM PCI bridge kind when `b.Type` is `pciBridge`, and the PCI
bridge kind for any other bridge type value. The two `bridgeType` constants
are distinct. -/
theorem appendBridges_kind (P : Pkg) (q : qemuPpc64le) (ds : List Device)
    (bs : List Bridge) (hd : P.pciBridge ≠ P.pcieBridge) :
    ∀ i b, bs[i]? = some b →
      ∃ d, (q.appendBridges P ds bs)[ds.length + i]? = some (Device.bridge d) ∧
        (b.Type_ = P.pcieBridge → d.Type_ = BridgeType.PCIEBridge) ∧
        (b.Type_ = P.pciBridge → d.Type_ = BridgeType.PCIBridge) ∧
        (b.Type_ ≠ P.pcieBridge → d.Type_ = BridgeType.PCIBridge) := by
  intro i b hb
  refine ⟨_, appendBridges_getElem_some P q ds bs i b hb, ?_, ?_, ?_⟩
  · intro h
    simp [h]
  · intro h
    have hne : b.Type_ ≠ P.pcieBridge := by rw [h]; exact hd
    simp [hne]
  · intro h
    simp [h]

theorem appendBridges_kind_witness :
    samplePkg.pciBridge ≠ samplePkg.pcieBridge ∧
    ∃ d, (sampleArch.appendBridges samplePkg [Device.other "net"]
        [{ Type_ := "pci", ID := "b0", Address := [] },
         { Type_ := "pcie", ID := "b1", Address := [] },
         { Type_ := "usb", ID := "b2", Address := [] }])[1 + 1]? = some (Device.bridge d) ∧
      d.Type_ = BridgeType.PCIEBridge :=
  ⟨by decide,
    (appendBridges_kind samplePkg sampleArch [Device.other "net"]
      [{ Type_ := "pci", ID := "b0", Address := [] },
       { Type_ := "pcie", ID := "b1", Address := [] },
       { Type_ := "usb", ID := "b2", Address := [] }] (by decide) 1
      { Type_ := "pcie", ID := "b1", Address := [] } rfl).imp
      fun _ h => ⟨h.1, h.2.1 rfl⟩⟩

/-- C16: for every hypervisor configuration, the provider returned by
`newQemuArch` carries as its default kernel parameters exactly the `kernelParams`
table, 15 entries in declaration order, `tsc=reliable` first, `pci=lastbus=0`
last and `console=hvc0` immediately before `console=hvc1`, and as its
supported-machine list exactly the single ppc64le profile with options
`"accel=kvm,usb=off"`; both are the same for every configuration. -/
theorem newQemuArch_tables (P : Pkg) (config : HypervisorConfig) :
    (newQemuArch P config).kernelParams =
      [ ⟨"tsc", "reliable"⟩, ⟨"no_timer_check", ""⟩, ⟨"rcupdate.rcu_expedited", "1"⟩,
        ⟨"i8042.direct", "1"⟩, ⟨"i8042.dumbkbd", "1"⟩, ⟨"i8042.nopnp", "1"⟩,
        ⟨"i8042.noaux", "1"⟩, ⟨"noreplace-smp", ""⟩, ⟨"reboot", "k"⟩,
        ⟨"console", "hvc0"⟩, ⟨"console", "hvc1"⟩, ⟨"iommu", "off"⟩,
        ⟨"cryptomgr.notests", ""⟩, ⟨"net.ifnames", "0"⟩, ⟨"pci", "lastbus=0"⟩ ] ∧
    (newQemuArch P config).kernelParams = kernelParams ∧
    (newQemuArch P config).kernelParams.length = 15 ∧
    (newQemuArch P config).kernelParams[0]? = some ⟨"tsc", "reliable"⟩ ∧
    (newQemuArch P config).kernelParams[9]? = some ⟨"console", "hvc0"⟩ ∧
    (newQemuArch P config).kernelParams[10]? = some ⟨"console", "hvc1"⟩ ∧
    (newQemuArch P config).kernelParams[14]? = some ⟨"pci", "lastbus=0"⟩ ∧
    (newQemuArch P config).supportedQemuMachines =
      [{ Type_ := P.QemuPpc64le, Options := "accel=kvm,usb=off" }] ∧
    ∀ config2 : HypervisorConfig,
      (newQemuArch P config2).kernelParams = (newQemuArch P config).kernelParams ∧
      (newQemuArch P config2).supportedQemuMachines =
        (newQemuArch P config).supportedQemuMachines :=
  ⟨rfl, rfl, rfl, rfl, rfl, rfl, rfl, rfl, fun _ => ⟨rfl, rfl⟩⟩

/-- C17: the code against the claim that only the pc machine type supports
hotplugging drives. Whenever the constant `QemuPpc64le` is not `"pc"`,
`capabilities()` on a provider of machine type `"pc"` returns the empty
capability set, so block-device hot-plug is not set there, and on a provider of
the ppc64le profile, which is not the pc machine type, it sets block-device
hot-plug. -/
theorem capabilities_pc_divergence (P : Pkg) (q : qemuPpc64le)
    (hpc : P.QemuPpc64le ≠ "pc") :
    (q.machineType = "pc" →
      q.capabilities P = { flags := 0 } ∧
      (q.capabilities P).isSet P.blockDeviceHotplugBit = false) ∧
    (q.machineType = P.QemuPpc64le →
      q.machineType ≠ "pc" ∧
      (q.capabilities P).isSet P.blockDeviceHotplugBit = true) := by
  constructor
  · intro hm
    have hne : q.machineType ≠ P.QemuPpc64le := by
      rw [hm]
      exact fun h => hpc h.symm
    have hcaps : q.capabilities P = { flags := 0 } := by
      simp [qemuPpc64le.capabilities, hne]
    refine ⟨hcaps, ?_⟩
    rw [hcaps]
    simp [capabilities.isSet]
  · intro hm
    refine ⟨by rw [hm]; exact hpc, ?_⟩
    rw [capabilities_isSet_iff]
    exact ⟨hm, rfl⟩

theorem capabilities_pc_divergence_witness :
    samplePkg.QemuPpc64le ≠ "pc" ∧
    (newQemuArch samplePkg { HypervisorMachineType := "pc" }).machineType = "pc" ∧
    (newQemuArch samplePkg { HypervisorMachineType := "pc" }).capabilities samplePkg
      = { flags := 0 } ∧
    sampleArch.machineType ≠ "pc" ∧
    (sampleArch.capabilities samplePkg).isSet samplePkg.blockDeviceHotplugBit = true :=
  ⟨by decide, rfl,
    ((capabilities_pc_divergence samplePkg
      (newQemuArch samplePkg { HypervisorMachineType := "pc" }) (by decide)).1 rfl).1,
    ((capabilities_pc_divergence samplePkg sampleArch (by decide)).2 rfl).1,
    ((capabilities_pc_divergence samplePkg sampleArch (by decide)).2 rfl).2⟩

/-- C18: for every hypervisor configuration whose requested machine type is
empty, the freshly constructed provider has the ppc64le profile as machine type
and `nestedRun` false: `cpuModel()` returns the default CPU model with no
suffix, `capabilities()` has block-device hot-plug set, and `bridges(n)` has
length `n` for every uint32 `n`. -/
theorem newQemuArch_default_behaviour (P : Pkg) (config : HypervisorConfig)
    (h : config.HypervisorMachineType = "") :
    (newQemuArch P config).machineType = P.QemuPpc64le ∧
    (newQemuArch P config).nestedRun = false ∧
    ((newQemuArch P config).cpuModel P).1 = P.defaultCPUModel ∧
    ((newQemuArch P config).capabilities P).isSet P.blockDeviceHotplugBit = true ∧
    ∀ n, n < 4294967296 → ((newQemuArch P config).bridges P n).length = n := by
  have hm : (newQemuArch P config).machineType = P.QemuPpc64le := by
    rw [newQemuArch_machineType_eq, if_pos h]
  refine ⟨hm, rfl, rfl, ?_, ?_⟩
  · rw [capabilities_isSet_iff]
    exact ⟨hm, rfl⟩
  · intro n hn
    exact bridges_length P _ n hm hn

theorem newQemuArch_default_behaviour_witness :
    ((newQemuArch samplePkg { HypervisorMachineType := "" }).cpuModel samplePkg).1 = "host" ∧
    ((newQemuArch samplePkg { HypervisorMachineType := "" }).capabilities samplePkg).isSet 1
      = true ∧
    ((newQemuArch samplePkg { HypervisorMachineType := "" }).bridges samplePkg 4).length = 4 :=
  ⟨(newQemuArch_default_behaviour samplePkg { HypervisorMachineType := "" } rfl).2.2.1,
    (newQemuArch_default_behaviour samplePkg { HypervisorMachineType := "" } rfl).2.2.2.1,
    (newQemuArch_default_behaviour samplePkg { HypervisorMachineType := "" } rfl).2.2.2.2 4
      (by decide)⟩

/-- C19: for every device list `ds`, every uint32 `n` and every machine type,
every descriptor that `appendBridges(ds, bridges(n))` adds is a bridge
descriptor of the VMM PCI bridge kind, never PCI-Express, and the number of
descriptors added is `n` on the ppc64le profile and 0 on any other machine
type. The two `bridgeType` constants are distinct. -/
theorem appendBridges_bridges_kind (P : Pkg) (q : qemuPpc64le) (ds : List Device) (n : Nat)
    (hd : P.pciBridge ≠ P.pcieBridge) (hn : n < 4294967296) :
    (q.appendBridges P ds (q.bridges P n)).take ds.length = ds ∧
    (∀ d ∈ (q.appendBridges P ds (q.bridges P n)).drop ds.length,
      ∃ bd, d = Device.bridge bd ∧ bd.Type_ = BridgeType.PCIBridge ∧
        bd.Type_ ≠ BridgeType.PCIEBridge) ∧
    (q.machineType = P.QemuPpc64le →
      ((q.appendBridges P ds (q.bridges P n)).drop ds.length).length = n) ∧
    (q.machineType ≠ P.QemuPpc64le →
      ((q.appendBridges P ds (q.bridges P n)).drop ds.length).length = 0 ∧
      q.appendBridges P ds (q.bridges P n) = ds) := by
  refine ⟨?_, ?_, ?_, ?_⟩
  · rw [appendBridges_eq, List.take_left]
  · intro d hmem
    rw [appendBridges_drop] at hmem
    simp only [List.mem_map] at hmem
    obtain ⟨ib, hib, rfl⟩ := hmem
    have ht : ib.2.Type_ = P.pciBridge :=
      bridges_type P q n hn ib.2 (List.snd_mem_of_mem_enumFrom hib)
    have hne : ib.2.Type_ ≠ P.pcieBridge := by rw [ht]; exact hd
    refine ⟨_, rfl, ?_, ?_⟩ <;> simp [hne]
  · intro hm
    rw [appendBridges_drop]
    simp [bridges_length P q n hm hn]
  · intro hm
    have hb : q.bridges P n = [] := by simp [qemuPpc64le.bridges, hm]
    rw [hb, appendBridges_drop]
    refine ⟨rfl, ?_⟩
    rw [appendBridges_eq]
    simp

theorem appendBridges_bridges_kind_witness :
    samplePkg.pciBridge ≠ samplePkg.pcieBridge ∧ 3 < 4294967296 ∧
    sampleArch.machineType = samplePkg.QemuPpc64le ∧
    ((sampleArch.appendBridges samplePkg [Device.other "net"]
      (sampleArch.bridges samplePkg 3)).drop 1).length = 3 ∧
    (newQemuArch samplePkg { HypervisorMachineType := "pc" }).appendBridges samplePkg
      [Device.other "net"]
      ((newQemuArch samplePkg { HypervisorMachineType := "pc" }).bridges samplePkg 3)
      = [Device.other "net"] :=
  ⟨by decide, by decide, rfl,
    (appendBridges_bridges_kind samplePkg sampleArch [Device.other "net"] 3 (by decide)
      (by decide)).2.2.1 rfl,
    ((appendBridges_bridges_kind samplePkg
      (newQemuArch samplePkg { HypervisorMachineType := "pc" }) [Device.other "net"] 3
      (by decide) (by decide)).2.2.2 (by decide)).2⟩

end Virtcontainers
